import Mathlib

/-!
Verification of the task-reminder bot (bot.py, database.py) against its
natural-language specification.

The Python source is shallowly embedded below.  Machine-level details that no
claim depends on are abstracted as follows:
* instants (UTC timestamps, `timedelta`s) are `Int` seconds;
* the SQLite `tasks` table is a `List Task` in insertion (rowid) order with
  an `AUTOINCREMENT` counter `nextId`; `added_date` (`CURRENT_TIMESTAMP`) is
  modelled by the monotone creation counter;
* the IANA timezone database behind `zoneinfo.ZoneInfo` is a parameter
  `tzdb : String -> ZoneRes`: a key is either accepted, or raises
  ZoneInfoNotFoundError (normalized but unknown), or raises ValueError
  (non-normalized, e.g. the empty string); a zone object is identified
  with its key string;
* outbound Telegram sends are modelled by a delivery oracle
  `sendOk : Nat -> Bool` (per task id) for the sweep, and assumed delivered
  for command replies; message texts abbreviate the source texts (emoji and
  markdown stripped) without changing their structure;
* `dateparser.parse` is an oracle `String -> Option Int`.
-/

namespace TaskBot

/-- The per-task notification flag columns (database.py `NOTIFICATION_INTERVAL_KEYS`,
added by `init_db` with `DEFAULT FALSE`). -/
structure Flags where
  notified_24h : Bool
  notified_12h : Bool
  notified_6h : Bool
  notified_3h : Bool
  notified_1h : Bool
  notified_15m : Bool
  notified_final_due : Bool
deriving DecidableEq, Repr

def Flags.allFalse : Flags := ⟨false, false, false, false, false, false, false⟩

/-- Read the flag column named `k` (row access `task[int_key]` in bot.py). -/
def Flags.get (f : Flags) (k : String) : Bool :=
  if k = "notified_24h" then f.notified_24h
  else if k = "notified_12h" then f.notified_12h
  else if k = "notified_6h" then f.notified_6h
  else if k = "notified_3h" then f.notified_3h
  else if k = "notified_1h" then f.notified_1h
  else if k = "notified_15m" then f.notified_15m
  else if k = "notified_final_due" then f.notified_final_due
  else false

/-- `UPDATE tasks SET <interval_key> = TRUE` applied to the flags of one row. -/
def Flags.setTrue (f : Flags) (k : String) : Flags :=
  if k = "notified_24h" then { f with notified_24h := true }
  else if k = "notified_12h" then { f with notified_12h := true }
  else if k = "notified_6h" then { f with notified_6h := true }
  else if k = "notified_3h" then { f with notified_3h := true }
  else if k = "notified_1h" then { f with notified_1h := true }
  else if k = "notified_15m" then { f with notified_15m := true }
  else if k = "notified_final_due" then { f with notified_final_due := true }
  else f

/-- A row of the `tasks` table (database.py `init_db`).  `due_date` is the
ISO-UTC string column, modelled as an instant; `NULL` is `none`.
`added_date` is the creation timestamp. -/
structure Task where
  id : Nat
  user_id : Int
  chat_id : Int
  description : String
  due_date : Option Int
  status : String
  added_date : Nat
  flags : Flags
deriving DecidableEq, Repr

/-- A row of the `users` table. -/
structure UserRow where
  user_id : Int
  timezone : String
deriving DecidableEq, Repr

/-- The SQLite database: `tasks` in rowid order plus the AUTOINCREMENT
counter, and the `users` table. -/
structure DBState where
  tasks : List Task
  users : List UserRow
  nextId : Nat
deriving DecidableEq, Repr

/-- database.py `NOTIFICATION_INTERVAL_KEYS`. -/
def NOTIFICATION_INTERVAL_KEYS : List String :=
  ["notified_24h", "notified_12h", "notified_6h",
   "notified_3h", "notified_1h", "notified_15m",
   "notified_final_due"]

/-- bot.py `NOTIFICATION_INTERVALS`, in dict insertion order:
(key, offset in seconds, human label). -/
def NOTIFICATION_INTERVALS : List (String × Int × String) :=
  [("notified_24h", 86400, "in less than 24 hours"),
   ("notified_12h", 43200, "in less than 12 hours"),
   ("notified_6h", 21600, "in less than 6 hours"),
   ("notified_3h", 10800, "in less than 3 hours"),
   ("notified_1h", 3600, "in less than 1 hour"),
   ("notified_15m", 900, "in less than 15 minutes"),
   ("notified_final_due", 0, "NOW or is OVERDUE")]

/-- The six timed threshold keys (all but the terminal one). -/
def timedKeys : List String :=
  ((NOTIFICATION_INTERVALS.filter (fun kv => kv.1 ≠ "notified_final_due")).map (fun kv => kv.1))

/-- Offset of a threshold key in seconds (lookup in the interval table). -/
def offsetOf (k : String) : Int :=
  (((NOTIFICATION_INTERVALS.find? (fun kv => kv.1 == k)).map (fun kv => kv.2.1)).getD (-1))

/-! ## database.py operations -/

/-- database.py `add_task`: INSERT of a fresh row, all notification flags
FALSE, status pending; returns `cursor.lastrowid`.  (Storage faults, which
the source maps to a `None` return, are outside the model.) -/
def add_task (db : DBState) (user_id chat_id : Int) (description : String)
    (due_date_utc : Option Int) : Nat × DBState :=
  let t : Task :=
    { id := db.nextId, user_id := user_id, chat_id := chat_id,
      description := description, due_date := due_date_utc,
      status := "pending", added_date := db.nextId, flags := Flags.allFalse }
  (db.nextId, { db with tasks := db.tasks ++ [t], nextId := db.nextId + 1 })

/-- SQLite comparison for `ORDER BY due_date ASC`: `NULL` sorts before every
value in ascending order; the ISO-UTC strings compare chronologically. -/
def dueLtSqlite : Option Int → Option Int → Bool
  | none, none => false
  | none, some _ => true
  | some _, none => false
  | some a, some b => decide (a < b)

/-- SQLite row order for `ORDER BY due_date ASC, added_date ASC`. -/
def sqliteLe (a b : Task) : Bool :=
  if a.due_date = b.due_date then decide (a.added_date ≤ b.added_date)
  else dueLtSqlite a.due_date b.due_date

/-- database.py `get_user_tasks`:
`SELECT * FROM tasks WHERE user_id = ? AND status = ? ORDER BY due_date ASC, added_date ASC`.
(The model resolves ORDER-BY ties deterministically by a stable sort, a
refinement of the unspecified SQL tie order.) -/
def get_user_tasks (db : DBState) (user_id : Int) (status : String) : List Task :=
  List.insertionSort (fun a b => sqliteLe a b = true)
    (db.tasks.filter (fun t => t.user_id == user_id && t.status == status))

/-- database.py `get_task_by_id`: `SELECT * FROM tasks WHERE id = ? AND user_id = ?`. -/
def get_task_by_id (db : DBState) (task_id : Nat) (user_id : Int) : Option Task :=
  db.tasks.find? (fun t => t.id == task_id && t.user_id == user_id)

/-- database.py `get_pending_tasks_with_due_dates`:
`WHERE t.status = pending AND t.due_date IS NOT NULL`.  (The joined
`user_timezone` column only feeds message rendering and is dropped.) -/
def get_pending_tasks_with_due_dates (db : DBState) : List Task :=
  db.tasks.filter (fun t => t.status == "pending" && t.due_date != none)

/-- database.py `update_task_status`:
`UPDATE tasks SET status = ? WHERE id = ? AND user_id = ?`; true iff
`rowcount > 0`. -/
def update_task_status (db : DBState) (task_id : Nat) (user_id : Int)
    (status : String) : Bool × DBState :=
  let affected := (db.tasks.filter (fun t => t.id == task_id && t.user_id == user_id)).length
  let tasks := db.tasks.map (fun t =>
    if t.id == task_id && t.user_id == user_id then { t with status := status } else t)
  (decide (0 < affected), { db with tasks := tasks })

/-- database.py `delete_task`:
`DELETE FROM tasks WHERE id = ? AND user_id = ?`; true iff `rowcount > 0`. -/
def delete_task (db : DBState) (task_id : Nat) (user_id : Int) : Bool × DBState :=
  let affected := (db.tasks.filter (fun t => t.id == task_id && t.user_id == user_id)).length
  let tasks := db.tasks.filter (fun t => !(t.id == task_id && t.user_id == user_id))
  (decide (0 < affected), { db with tasks := tasks })

/-- database.py `mark_specific_notification_sent`: key validation, then
`UPDATE tasks SET <interval_key> = TRUE WHERE id = ?`; true iff
`rowcount > 0` (SQLite counts every row matched by the WHERE clause). -/
def mark_specific_notification_sent (db : DBState) (task_id : Nat)
    (interval_key : String) : Bool × DBState :=
  if interval_key ∉ NOTIFICATION_INTERVAL_KEYS then (false, db)
  else
    let affected := (db.tasks.filter (fun t => t.id == task_id)).length
    let tasks := db.tasks.map (fun t =>
      if t.id == task_id then { t with flags := t.flags.setTrue interval_key } else t)
    (decide (0 < affected), { db with tasks := tasks })

/-- Outcome of `zoneinfo.ZoneInfo(key)`: success, `ZoneInfoNotFoundError`
(a normalized key absent from the zone database), or `ValueError` (a
non-normalized key — `ZoneInfo("")` raises ValueError). -/
inductive ZoneRes where
  | ok
  | notFound
  | valueError
deriving DecidableEq, Repr

/-- An exception that escapes the timezone-resolution call chain. -/
inductive TzErr where
  | valueError
deriving DecidableEq, Repr

/-- database.py `get_user_timezone_str`: returns the stored value when
`zoneinfo.ZoneInfo` accepts it.  The inner handler catches ONLY
`ZoneInfoNotFoundError` (returning the `UTC` default); a `ValueError` from
a non-normalized stored key escapes it, and the outer handler catches only
`sqlite3.Error`, so the `ValueError` propagates to the caller. -/
def get_user_timezone_str (tzdb : String → ZoneRes) (db : DBState) (user_id : Int) :
    Except TzErr String :=
  match db.users.find? (fun u => u.user_id == user_id) with
  | some row =>
    match tzdb row.timezone with
    | ZoneRes.ok => .ok row.timezone
    | ZoneRes.notFound => .ok "UTC"
    | ZoneRes.valueError => .error TzErr.valueError
  | none => .ok "UTC"

/-! ## bot.py helpers and logic functions -/

/-- bot.py `get_user_tz`: the repository read happens OUTSIDE the `try`, so
an exception it raises propagates to the caller of `get_user_tz`; only the
subsequent `ZoneInfo(tz_str)` call is guarded (`except Exception`), falling
back to the module constant `UTC`.  A zone object is identified with its
key. -/
def get_user_tz (tzdb : String → ZoneRes) (db : DBState) (user_id : Int) :
    Except TzErr String :=
  match get_user_timezone_str tzdb db user_id with
  | .error e => .error e
  | .ok tz_str =>
    match tzdb tz_str with
    | ZoneRes.ok => .ok tz_str
    | _ => .ok "UTC"

/-- bot.py `build_task_message_text` (rendering abbreviated: the local-time
formatting of the due instant is out of the claims and shown as the raw
instant). -/
def build_task_message_text (t : Task) : String :=
  let due_display := match t.due_date with
    | some d => " (Due: " ++ toString d ++ ")"
    | none => ""
  "ID: " ++ toString t.id ++ " - " ++ t.description ++ due_display

/-- bot.py `add_task_logic`.  `dp` is the `dateparser.parse` oracle giving
the resolved UTC instant of the raw due string, or `none` on parse failure. -/
def add_task_logic (db : DBState) (description : String)
    (due_date : Option String) (dp : String → Option Int)
    (user_id_for_task chat_id_for_task : Int) : String × DBState :=
  if user_id_for_task == 0 || chat_id_for_task == 0 then
    ("Error: Missing context.", db)
  else
    let due_date_utc : Option Int := match due_date with
      | some s => dp s
      | none => none
    let r := add_task db user_id_for_task chat_id_for_task description due_date_utc
    let task_id := r.1
    if task_id ≠ 0 then
      let response := "Okay, I have added task " ++ description ++
        " (ID: " ++ toString task_id ++ ")."
      let response := match due_date_utc, due_date with
        | some d, _ => response ++ " Due date is set to " ++ toString d ++ "."
        | none, some _ => response ++ " I could not understand the due date, so none was set."
        | none, none => response ++ " No due date was set."
      (response, r.2)
    else
      ("Sorry, I failed to add the task to the database.", r.2)

/-- One line of the conversational list reply (bot.py `list_tasks_logic`
replaces the pin marker by a dash). -/
def taskLine (t : Task) : String := "- " ++ build_task_message_text t

/-- bot.py `list_tasks_logic`. -/
def list_tasks_logic (db : DBState) (user_id_for_task : Int)
    (status_filter : String) : String :=
  if user_id_for_task == 0 then "Error: Missing context."
  else
    let tasks := get_user_tasks db user_id_for_task status_filter
    if tasks.isEmpty then "You have no " ++ status_filter ++ " tasks!"
    else
      "OK. Your " ++ status_filter ++ " tasks:\n\n" ++
        String.intercalate "\n" (tasks.map taskLine)

/-- A message sent by the interactive `/list` command: its text and whether
it carries the Done/Delete inline keyboard. -/
structure OutMsg where
  text : String
  keyboard : Bool
deriving DecidableEq, Repr

/-- The `for task in tasks` loop of bot.py `list_tasks_command` with
`max_show = 20` (sends assumed delivered, so `shown` counts iterations). -/
def listLoop : List Task → Nat → List OutMsg
  | [], _ => []
  | t :: rest, shown =>
    if 20 ≤ shown then [{ text := "...(First 20)", keyboard := false }]
    else { text := build_task_message_text t, keyboard := true } :: listLoop rest (shown + 1)

/-- bot.py `list_tasks_command`: header reply, then one buttoned message per
task up to `max_show`, then a truncation notice. -/
def list_tasks_command (db : DBState) (user_id : Int) : List OutMsg :=
  let tasks := get_user_tasks db user_id "pending"
  if tasks.isEmpty then [{ text := "No pending tasks!", keyboard := false }]
  else { text := "Pending tasks:", keyboard := false } :: listLoop tasks 0

/-- Python `str.isdigit` (on ASCII digit strings, the case in scope). -/
def isDigits (cs : List Char) : Bool :=
  cs ≠ [] && cs.all Char.isDigit

/-- Python `int()` on a digit string. -/
def digitsToNat (cs : List Char) : Nat :=
  cs.foldl (fun n c => n * 10 + (c.toNat - 48)) 0

/-- bot.py `done_task_command` (`/done <id>`). -/
def done_task_command (db : DBState) (user_id : Int) (args : List String) :
    String × DBState :=
  match args with
  | [] => ("Usage: /done <id>", db)
  | a :: _ =>
    if !(isDigits a.data) then ("Usage: /done <id>", db)
    else
      let task_id := digitsToNat a.data
      match get_task_by_id db task_id user_id with
      | none => ("ID " ++ toString task_id ++ " NF.", db)
      | some task =>
        if task.status = "done" then ("ID " ++ toString task_id ++ " done.", db)
        else
          let r := update_task_status db task_id user_id "done"
          if r.1 then ("Marked " ++ toString task_id ++ " done.", r.2)
          else ("Fail mark " ++ toString task_id ++ " done.", r.2)

/-- An unhandled Python-level fault. -/
inductive PyErr where
  | nameError (name : String)
deriving DecidableEq, Repr

/-- Split at the first colon (Python `split(":", 1)`); `none` when there is
no colon, in which case unpacking `action, task_id_str = ...` raises. -/
def splitColon : List Char → Option (List Char × List Char)
  | [] => none
  | c :: rest =>
    if c = ':' then some ([], rest)
    else (splitColon rest).map (fun p => (c :: p.1, p.2))

/-- `callback_data.split(":", 1)` followed by `int(task_id_str)`:
`none` when unpacking or `int` conversion raises (caught as a generic
error by the handler). -/
def parseCallbackData (data : String) : Option (String × Nat) :=
  match splitColon data.data with
  | none => none
  | some (action, idStr) =>
    if isDigits idStr then some (String.mk action, digitsToNat idStr)
    else none

/-- bot.py `button_callback`.  Returns the edited message texts and the new
database state, or the unhandled fault the handler raises.  The `done`
branch of the source begins (bot.py line 422) with
`logger.info(f"Mark ... done ...")` interpolating the undefined names
`tid` and `uid`, which raises `NameError` before anything else runs. -/
def button_callback (db : DBState) (from_user : Int) (data : Option String) :
    Except PyErr (DBState × List String) :=
  match data with
  | none => .ok (db, ["Error."])
  | some s =>
    match parseCallbackData s with
    | none => .ok (db, ["Error."])
    | some (action, task_id) =>
      match get_task_by_id db task_id from_user with
      | none => .ok (db, ["Task " ++ toString task_id ++ " NF."])
      | some task =>
        let original_display_text := build_task_message_text task
        if action = "done" then
          .error (.nameError "tid")
        else if action = "delete" then
          let r := delete_task db task_id from_user
          if r.1 then .ok (r.2, ["Deleted: " ++ original_display_text])
          else .ok (r.2, ["Fail delete " ++ toString task_id ++ "."])
        else .ok (db, ["Unknown."])

/-! ## bot.py deadline sweep -/

/-- The timed intervals as the source computes them:
`sorted([... if k != final_key], key=lambda i: i[1][0])` — ascending by
offset. -/
def sortedIntervals : List (String × Int × String) :=
  List.insertionSort (fun a b => (a.2.1 ≤ b.2.1 : Prop))
    (NOTIFICATION_INTERVALS.filter (fun kv => kv.1 ≠ "notified_final_due"))

/-- The threshold `check_deadlines` selects for one task: the terminal
threshold when due or overdue, else the first entry of the
ascending-sorted timed scan with `remain <= int_delta and not task[int_key]`. -/
def selectThreshold (remain : Int) (f : Flags) : Option String :=
  if remain ≤ 0 then
    if f.notified_final_due then none else some "notified_final_due"
  else
    (sortedIntervals.find? (fun kv => decide (remain ≤ kv.2.1) && !(f.get kv.1))).map
      (fun kv => kv.1)

/-- A threshold notification sent by the sweep. -/
structure Notif where
  chat_id : Int
  task_id : Nat
  key : String
deriving DecidableEq, Repr

/-- The per-task body of the `for task in tasks` loop of `check_deadlines`:
at most one send; on successful delivery the flag is marked, on a delivery
failure the exception is caught, nothing is marked, and the loop moves on. -/
def processTask (now : Int) (sendOk : Nat → Bool) (db : DBState) (t : Task) :
    DBState × List Notif :=
  match t.due_date with
  | none => (db, [])
  | some due =>
    let remain := due - now
    match selectThreshold remain t.flags with
    | none => (db, [])
    | some k =>
      if sendOk t.id then
        let r := mark_specific_notification_sent db t.id k
        (r.2, [{ chat_id := t.chat_id, task_id := t.id, key := k }])
      else (db, [])

/-- Fold of `processTask` over the fetched batch (flags are read from the
row snapshots, marks are written to the threaded database, exactly as the
source reads `task[int_key]` from the SELECT result). -/
def sweepGo (now : Int) (sendOk : Nat → Bool) : DBState → List Task → DBState × List Notif
  | db, [] => (db, [])
  | db, t :: rest =>
    let r := processTask now sendOk db t
    let r2 := sweepGo now sendOk r.1 rest
    (r2.1, r.2 ++ r2.2)

/-- bot.py `check_deadlines`: fetch the eligible batch once, then process
each task. -/
def check_deadlines (now : Int) (sendOk : Nat → Bool) (db : DBState) :
    DBState × List Notif :=
  sweepGo now sendOk db (get_pending_tasks_with_due_dates db)

/-- The notifications `processTask` would emit for a row (they do not depend
on the threaded database). -/
def msgsFor (now : Int) (sendOk : Nat → Bool) (t : Task) : List Notif :=
  match t.due_date with
  | none => []
  | some due =>
    match selectThreshold (due - now) t.flags with
    | none => []
    | some k => if sendOk t.id then [{ chat_id := t.chat_id, task_id := t.id, key := k }] else []

/-! ## Operation alphabet (for lifetime invariants) -/

/-- The program operations that touch the store: add, list, complete
(`/done`), delete, the fired-threshold mark, and the deadline sweep. -/
inductive Op where
  | add (user_id chat_id : Int) (description : String) (due : Option Int)
  | listOp (user_id : Int) (status : String)
  | complete (task_id : Nat) (user_id : Int)
  | deleteOp (task_id : Nat) (user_id : Int)
  | markFired (task_id : Nat) (key : String)
  | sweep (now : Int) (sendOk : Nat → Bool)

def applyOp : Op → DBState → DBState
  | .add u c d due, s => (add_task s u c d due).2
  | .listOp _ _, s => s
  | .complete tid uid, s => (update_task_status s tid uid "done").2
  | .deleteOp tid uid, s => (delete_task s tid uid).2
  | .markFired tid k, s => (mark_specific_notification_sent s tid k).2
  | .sweep now ok, s => (check_deadlines now ok s).1

def applyOps (ops : List Op) (s : DBState) : DBState :=
  ops.foldl (fun s op => applyOp op s) s

/-- Lookup of a task row by id. -/
def findTask (db : DBState) (i : Nat) : Option Task :=
  db.tasks.find? (fun t => t.id == i)

/-- Pointwise order on the seven fired flags ("the fired set does not lose a
member"). -/
def flagsLe (a b : Flags) : Prop :=
  (a.notified_24h = true → b.notified_24h = true) ∧
  (a.notified_12h = true → b.notified_12h = true) ∧
  (a.notified_6h = true → b.notified_6h = true) ∧
  (a.notified_3h = true → b.notified_3h = true) ∧
  (a.notified_1h = true → b.notified_1h = true) ∧
  (a.notified_15m = true → b.notified_15m = true) ∧
  (a.notified_final_due = true → b.notified_final_due = true)

instance (a b : Flags) : Decidable (flagsLe a b) := by
  unfold flagsLe; infer_instance

/-- Well-formedness the real schema guarantees: ids are unique (PRIMARY KEY)
and below the AUTOINCREMENT counter. -/
def Invariant (s : DBState) : Prop :=
  (s.tasks.map Task.id).Nodup ∧ ∀ t ∈ s.tasks, t.id < s.nextId

instance (s : DBState) : Decidable (Invariant s) := by
  unfold Invariant; infer_instance

/-! ## Claim-side predicates (formalizing the spec wording) -/

/-- `k` is a timed threshold, not yet fired, whose offset covers the
remaining time, and of minimal offset among all such thresholds. -/
def isSmallestEligible (remain : Int) (f : Flags) (k : String) : Prop :=
  k ∈ timedKeys ∧ f.get k = false ∧ remain ≤ offsetOf k ∧
  ∀ k' ∈ timedKeys, f.get k' = false → remain ≤ offsetOf k' → offsetOf k ≤ offsetOf k'

instance (remain : Int) (f : Flags) (k : String) : Decidable (isSmallestEligible remain f k) := by
  unfold isSmallestEligible; infer_instance

/-- The claimed property: `k` is of maximal offset among the unfired
thresholds whose offset covers the remaining time. -/
def isLargestEligible (remain : Int) (f : Flags) (k : String) : Prop :=
  k ∈ timedKeys ∧ f.get k = false ∧ remain ≤ offsetOf k ∧
  ∀ k' ∈ timedKeys, f.get k' = false → remain ≤ offsetOf k' → offsetOf k' ≤ offsetOf k

instance (remain : Int) (f : Flags) (k : String) : Decidable (isLargestEligible remain f k) := by
  unfold isLargestEligible; infer_instance

/-- Due-date comparison as the spec claims the List order: tasks without a
due date sort LAST. -/
def dueLtSpecNoneLast : Option Int → Option Int → Bool
  | none, none => false
  | none, some _ => false
  | some _, none => true
  | some a, some b => decide (a < b)

/-- The spec-claimed List row order: due date ascending with no-due-date
tasks last, ties by creation order. -/
def specLe (a b : Task) : Bool :=
  if a.due_date = b.due_date then decide (a.added_date ≤ b.added_date)
  else dueLtSpecNoneLast a.due_date b.due_date

/-- A sequence of sweep invocations, each with its own clock reading and
delivery oracle. -/
def runSweeps (ps : List (Int × (Nat → Bool))) (db : DBState) : DBState :=
  ps.foldl (fun s p => (check_deadlines p.1 p.2 s).1) db

/-! ## Concrete states for witnesses and counterexamples -/

/-- A task pending with a due date, no flags fired. -/
def mkPending (i : Nat) (due : Option Int) (added : Nat) : Task :=
  { id := i, user_id := 7, chat_id := 70, description := "t",
    due_date := due, status := "pending", added_date := added,
    flags := Flags.allFalse }

/-- One pending task due at instant 600, id 1. -/
def dbC1 : DBState := { tasks := [mkPending 1 (some 600) 1], users := [], nextId := 2 }

/-- One pending task, id 1, user 7, no due date (for the button claims). -/
def dbC2 : DBState := { tasks := [mkPending 1 none 1], users := [], nextId := 2 }

/-- Tasks A (id 1, delivery fails) and B (id 2, delivery succeeds), both
pending and overdue at `now = 1000`. -/
def dbC3 : DBState :=
  { tasks := [mkPending 1 (some 600) 1, mkPending 2 (some 700) 2], users := [], nextId := 3 }

/-- Delivery oracle failing for task 1 and succeeding for task 2. -/
def sendOkC3 (i : Nat) : Bool := i != 1

/-- One task already done (id 1). -/
def dbC4 : DBState :=
  { tasks := [{ mkPending 1 (some 600) 1 with status := "done" }], users := [], nextId := 2 }

/-- One pending task (id 1) for the C4 witness. -/
def dbC4w : DBState := { tasks := [mkPending 1 (some 600) 1], users := [], nextId := 2 }

/-- A no-due-date task created first, then a due-dated one, same owner. -/
def dbC5 : DBState :=
  { tasks := [mkPending 1 none 1, mkPending 2 (some 100) 2], users := [], nextId := 3 }

/-- An empty store. -/
def dbEmpty : DBState := { tasks := [], users := [], nextId := 1 }

/-- One pending no-due-date task with no flags fired (id 1). -/
def dbC7 : DBState := { tasks := [mkPending 1 none 1], users := [], nextId := 2 }

/-- A concrete zone database for C9: the empty key is non-normalized
(ValueError), two keys are recognized, the rest are not found. -/
def tzdbC9 (s : String) : ZoneRes :=
  if s = "" then ZoneRes.valueError
  else if s = "UTC" || s = "Asia/Tashkent" then ZoneRes.ok
  else ZoneRes.notFound

/-- A user with a stored recognized timezone. -/
def dbC9 : DBState :=
  { tasks := [], users := [{ user_id := 12345, timezone := "Asia/Tashkent" }], nextId := 1 }

/-- A user whose stored timezone string is empty. -/
def dbC9bad : DBState :=
  { tasks := [], users := [{ user_id := 99, timezone := "" }], nextId := 1 }

/-- Twenty-one pending tasks of user 7 (for the /list truncation witness). -/
def dbC10 : DBState :=
  { tasks := (List.range 21).map (fun i => mkPending (i + 1) none (i + 1)),
    users := [], nextId := 22 }

/-! ## Theorems -/

theorem find?_min {l : List (String × Int × String)} {remain : Int} {f : Flags}
    {kv₀ : String × Int × String}
    (hsort : l.Pairwise (fun a b => a.2.1 ≤ b.2.1))
    (hfind : l.find? (fun kv => decide (remain ≤ kv.2.1) && !(f.get kv.1)) = some kv₀) :
    kv₀ ∈ l ∧ remain ≤ kv₀.2.1 ∧ f.get kv₀.1 = false ∧
      ∀ kv ∈ l, f.get kv.1 = false → remain ≤ kv.2.1 → kv₀.2.1 ≤ kv.2.1 := by
  induction l with
  | nil => simp at hfind
  | cons a l ih =>
    rcases List.pairwise_cons.mp hsort with ⟨ha, hl⟩
    cases hpa : (decide (remain ≤ a.2.1) && !(f.get a.1)) with
    | true =>
      simp only [List.find?_cons, hpa] at hfind
      obtain rfl : a = kv₀ := by injection hfind
      rcases (Bool.and_eq_true _ _).mp hpa with ⟨h1, h2⟩
      refine ⟨List.mem_cons_self _ _, of_decide_eq_true h1, by simpa using h2, ?_⟩
      intro kv hkv _ _
      rcases List.mem_cons.mp hkv with rfl | hkv
      · exact le_refl _
      · exact ha kv hkv
    | false =>
      simp only [List.find?_cons, hpa] at hfind
      rcases ih hl hfind with ⟨hmem, hrem, hget, hmin⟩
      refine ⟨List.mem_cons_of_mem _ hmem, hrem, hget, ?_⟩
      intro kv hkv hg hr
      rcases List.mem_cons.mp hkv with rfl | hkv
      · exfalso
        rw [Bool.and_eq_false_eq_eq_false_or_eq_false] at hpa
        rcases hpa with hpa | hpa
        · exact absurd hr (by simpa using hpa)
        · simp [hg] at hpa
      · exact hmin kv hkv hg hr

theorem sortedIntervals_pairwise : sortedIntervals.Pairwise (fun a b => a.2.1 ≤ b.2.1) := by
  decide

theorem sortedIntervals_keys : ∀ kv ∈ sortedIntervals,
    kv.1 ∈ timedKeys ∧ offsetOf kv.1 = kv.2.1 ∧ kv.1 ∈ NOTIFICATION_INTERVAL_KEYS := by
  decide

theorem timedKeys_covered : ∀ k ∈ timedKeys,
    ∃ kv, kv ∈ sortedIntervals ∧ kv.1 = k ∧ kv.2.1 = offsetOf k := by
  decide

/-- Core fact about the threshold choice of the sweep for a not-yet-due task: it
is the unfired timed threshold of SMALLEST covering offset. -/
theorem selectThreshold_pos_min {remain : Int} {f : Flags} {k : String}
    (h : 0 < remain) (hs : selectThreshold remain f = some k) :
    isSmallestEligible remain f k := by
  unfold selectThreshold at hs
  rw [if_neg (by omega)] at hs
  rcases Option.map_eq_some'.mp hs with ⟨kv₀, hfind, rfl⟩
  rcases find?_min sortedIntervals_pairwise hfind with ⟨hmem, hrem, hget, hmin⟩
  rcases sortedIntervals_keys kv₀ hmem with ⟨hk1, hk2, _⟩
  refine ⟨hk1, hget, by rwa [hk2], ?_⟩
  intro k' hk' hg hr
  rcases timedKeys_covered k' hk' with ⟨kv', hkv', hkeq, hoeq⟩
  rw [hk2]
  calc kv₀.2.1 ≤ kv'.2.1 := hmin kv' hkv' (by rwa [hkeq]) (by rw [hoeq]; exact hr)
    _ = offsetOf k' := hoeq

theorem processTask_snd (now : Int) (ok : Nat → Bool) (db : DBState) (t : Task) :
    (processTask now ok db t).2 = msgsFor now ok t := by
  cases hd : t.due_date with
  | none => simp [processTask, msgsFor, hd]
  | some d =>
    cases hs : selectThreshold (d - now) t.flags with
    | none => simp [processTask, msgsFor, hd, hs]
    | some k =>
      cases hok : ok t.id <;> simp [processTask, msgsFor, hd, hs, hok]

theorem msgsFor_task_id (now : Int) (ok : Nat → Bool) (t : Task) :
    ∀ n ∈ msgsFor now ok t, n.task_id = t.id := by
  intro n hn
  cases hd : t.due_date with
  | none => simp [msgsFor, hd] at hn
  | some d =>
    cases hs : selectThreshold (d - now) t.flags with
    | none => simp [msgsFor, hd, hs] at hn
    | some k =>
      cases hok : ok t.id <;> simp [msgsFor, hd, hs, hok] at hn
      rw [hn]

theorem sweepGo_msgs_filter_nil (now : Int) (ok : Nat → Bool) (i : Nat) :
    ∀ (rows : List Task) (db : DBState), (∀ r ∈ rows, r.id ≠ i) →
      ((sweepGo now ok db rows).2).filter (fun n => n.task_id == i) = [] := by
  intro rows
  induction rows with
  | nil => intro db _; simp [sweepGo]
  | cons r rest ih =>
    intro db h
    simp only [sweepGo, List.filter_append]
    rw [ih _ (fun r' hr' => h r' (List.mem_cons_of_mem _ hr'))]
    rw [List.filter_eq_nil_iff.mpr, List.nil_append]
    intro n hn
    rw [processTask_snd] at hn
    have := msgsFor_task_id now ok r n hn
    simp [this, h r (List.mem_cons_self _ _)]

theorem sweepGo_msgs_filter_eq (now : Int) (ok : Nat → Bool) (t : Task) :
    ∀ (rows : List Task) (db : DBState), t ∈ rows → ((rows.map Task.id).Nodup) →
      ((sweepGo now ok db rows).2).filter (fun n => n.task_id == t.id) = msgsFor now ok t := by
  intro rows
  induction rows with
  | nil => intro db h _; simp at h
  | cons r rest ih =>
    intro db ht hN
    simp only [List.map_cons, List.nodup_cons, List.mem_map] at hN
    rcases hN with ⟨hrid, hNrest⟩
    simp only [sweepGo, List.filter_append]
    rcases List.mem_cons.mp ht with rfl | ht
    · rw [sweepGo_msgs_filter_nil now ok t.id rest _ ?onlyone]
      case onlyone =>
        intro r' hr' he
        exact hrid ⟨r', hr', he⟩
      rw [List.append_nil, processTask_snd, List.filter_eq_self.mpr]
      intro n hn
      simp [msgsFor_task_id now ok t n hn]
    · rw [ih _ ht hNrest, List.filter_eq_nil_iff.mpr, List.nil_append]
      intro n hn
      rw [processTask_snd] at hn
      have hnid := msgsFor_task_id now ok r n hn
      have : r.id ≠ t.id := by
        intro he
        exact hrid ⟨t, ht, he.symm⟩
      simp [hnid, this]

theorem mem_pending_rows {db : DBState} {t : Task} (ht : t ∈ db.tasks)
    (hp : t.status = "pending") (hd : t.due_date ≠ none) :
    t ∈ get_pending_tasks_with_due_dates db := by
  unfold get_pending_tasks_with_due_dates
  rw [List.mem_filter]
  refine ⟨ht, ?_⟩
  simp [hp, hd]

theorem rows_ids_nodup {db : DBState} (hN : (db.tasks.map Task.id).Nodup) :
    ((get_pending_tasks_with_due_dates db).map Task.id).Nodup :=
  hN.sublist ((List.filter_sublist _).map Task.id)

/-- C1, counterexample: at 600 seconds (10 minutes) remaining with nothing
fired, the sweep selects the 15-minute threshold, which is NOT the
largest-offset unfired threshold covering the remaining time (the
24-hour threshold is). -/
theorem C1_counterexample :
    selectThreshold 600 Flags.allFalse = some "notified_15m" ∧
    ¬ isLargestEligible 600 Flags.allFalse "notified_15m" ∧
    isLargestEligible 600 Flags.allFalse "notified_24h" := by
  decide

/-- C1 (amended): for a pending task with a future due date, one sweep emits
at most one threshold notification for that task, and the threshold emitted
is the one whose offset is the SMALLEST offset >= (due_at - now) among the
timed thresholds not already fired (the source scans in increasing-offset
order). -/
theorem C1_sweep_selects_smallest_covering (now : Int) (sendOk : Nat → Bool)
    (db : DBState) (t : Task) (d : Int)
    (hN : (db.tasks.map Task.id).Nodup) (ht : t ∈ db.tasks)
    (hp : t.status = "pending") (hd : t.due_date = some d) (hfut : 0 < d - now) :
    (((check_deadlines now sendOk db).2).filter (fun n => n.task_id == t.id)).length ≤ 1 ∧
    ∀ n ∈ ((check_deadlines now sendOk db).2).filter (fun n => n.task_id == t.id),
      isSmallestEligible (d - now) t.flags n.key := by
  have hrow : t ∈ get_pending_tasks_with_due_dates db :=
    mem_pending_rows ht hp (by simp [hd])
  have hfe : ((check_deadlines now sendOk db).2).filter (fun n => n.task_id == t.id)
      = msgsFor now sendOk t :=
    sweepGo_msgs_filter_eq now sendOk t _ db hrow (rows_ids_nodup hN)
  rw [hfe]
  unfold msgsFor
  rw [hd]
  cases hs : selectThreshold (d - now) t.flags with
  | none => simp [hs]
  | some k =>
    have hk := selectThreshold_pos_min hfut hs
    cases hok : sendOk t.id <;> simp [hs, hok, hk]

/-- C1 witness: the amended claim applied to a concrete store (one pending
task due 600 seconds from now, nothing fired, delivery up). -/
theorem C1_witness :
    (dbC1.tasks.map Task.id).Nodup ∧ mkPending 1 (some 600) 1 ∈ dbC1.tasks ∧
    (mkPending 1 (some 600) 1).status = "pending" ∧
    (mkPending 1 (some 600) 1).due_date = some 600 ∧ (0 : Int) < 600 - 0 ∧
    ((((check_deadlines 0 (fun _ => true) dbC1).2).filter
        (fun n => n.task_id == (mkPending 1 (some 600) 1).id)).length ≤ 1 ∧
      ∀ n ∈ ((check_deadlines 0 (fun _ => true) dbC1).2).filter
          (fun n => n.task_id == (mkPending 1 (some 600) 1).id),
        isSmallestEligible (600 - 0) (mkPending 1 (some 600) 1).flags n.key) :=
  ⟨by decide, by decide, by decide, by decide, by decide,
    C1_sweep_selects_smallest_covering 0 (fun _ => true) dbC1 (mkPending 1 (some 600) 1) 600
      (by decide) (by decide) (by decide) (by decide) (by decide)⟩

/-- C2, divergence witness (code bug): clicking the Done button on a pending
task raises `NameError` — bot.py line 422 logs an f-string over the
undefined names `tid`/`uid` before any state change — so the task is never
marked done and no edit happens, while the `/done` command path on the same
store marks the task done and confirms.  This contradicts the test
`test_button_callback_done` of the source, which expects the DONE edit. -/
theorem C2_button_done_raises :
    button_callback dbC2 7 (some "done:1") = .error (.nameError "tid") ∧
    done_task_command dbC2 7 ["1"] =
      ("Marked 1 done.", { dbC2 with tasks := [{ mkPending 1 none 1 with status := "done" }] }) :=
  ⟨rfl, rfl⟩

theorem find?_map_id_pres {m : Task → Task} (hid : ∀ u, (m u).id = u.id)
    (l : List Task) (i : Nat) :
    (l.map m).find? (fun u => u.id == i) = ((l.find? (fun u => u.id == i)).map m) := by
  rw [List.find?_map m l]
  have hp : ((fun u => u.id == i) ∘ m) = (fun u : Task => u.id == i) := by
    funext u
    simp [Function.comp, hid]
  rw [hp]

theorem mark_db_valid {k : String} (hk : k ∈ NOTIFICATION_INTERVAL_KEYS)
    (db : DBState) (tid : Nat) :
    (mark_specific_notification_sent db tid k).2 =
      { db with tasks := db.tasks.map (fun t =>
          if t.id == tid then { t with flags := t.flags.setTrue k } else t) } := by
  simp [mark_specific_notification_sent, hk]

theorem findTask_mark_ne {k : String} (hk : k ∈ NOTIFICATION_INTERVAL_KEYS)
    (db : DBState) {tid i : Nat} (hne : i ≠ tid) :
    findTask (mark_specific_notification_sent db tid k).2 i = findTask db i := by
  rw [mark_db_valid hk]
  unfold findTask
  rw [find?_map_id_pres (fun u => by split <;> rfl)]
  cases h : db.tasks.find? (fun t => t.id == i) with
  | none => rfl
  | some u =>
    have hui : u.id = i := by simpa using List.find?_some h
    simp [hui, hne]

theorem findTask_mark_self {k : String} (hk : k ∈ NOTIFICATION_INTERVAL_KEYS)
    (db : DBState) {tid : Nat} {u : Task} (hf : findTask db tid = some u) :
    findTask (mark_specific_notification_sent db tid k).2 tid
      = some { u with flags := u.flags.setTrue k } := by
  rw [mark_db_valid hk]
  unfold findTask at hf ⊢
  rw [find?_map_id_pres (fun u => by split <;> rfl), hf]
  have hui : u.id = tid := by simpa using List.find?_some hf
  simp [hui]

theorem selectThreshold_mem_keys {remain : Int} {f : Flags} {k : String}
    (hs : selectThreshold remain f = some k) : k ∈ NOTIFICATION_INTERVAL_KEYS := by
  unfold selectThreshold at hs
  split at hs
  · split at hs
    · exact absurd hs (by simp)
    · obtain rfl : "notified_final_due" = k := by injection hs
      decide
  · rcases Option.map_eq_some'.mp hs with ⟨kv, hfind, rfl⟩
    exact (sortedIntervals_keys kv (List.mem_of_find?_eq_some hfind)).2.2

theorem processTask_fst_ne {now : Int} {ok : Nat → Bool} {db : DBState} {t : Task}
    {i : Nat} (hne : t.id ≠ i) :
    findTask (processTask now ok db t).1 i = findTask db i := by
  cases hd : t.due_date with
  | none => simp [processTask, hd]
  | some d =>
    cases hs : selectThreshold (d - now) t.flags with
    | none => simp [processTask, hd, hs]
    | some k =>
      cases hok : ok t.id with
      | false => simp [processTask, hd, hs, hok]
      | true =>
        simp only [processTask, hd, hs, hok, if_pos]
        exact findTask_mark_ne (selectThreshold_mem_keys hs) db (Ne.symm hne)

theorem processTask_fst_sendFail {now : Int} {ok : Nat → Bool} {db : DBState} {t : Task}
    (h : ok t.id = false) : (processTask now ok db t).1 = db := by
  cases hd : t.due_date with
  | none => simp [processTask, hd]
  | some d =>
    cases hs : selectThreshold (d - now) t.flags with
    | none => simp [processTask, hd, hs]
    | some k => simp [processTask, hd, hs, h]

theorem sweepGo_fst_untouched {now : Int} {ok : Nat → Bool} {i : Nat} :
    ∀ (rows : List Task) (db : DBState), (∀ r ∈ rows, r.id ≠ i) →
      findTask (sweepGo now ok db rows).1 i = findTask db i := by
  intro rows
  induction rows with
  | nil => intro db _; rfl
  | cons r rest ih =>
    intro db h
    simp only [sweepGo]
    rw [ih _ (fun r' hr' => h r' (List.mem_cons_of_mem _ hr'))]
    exact processTask_fst_ne (h r (List.mem_cons_self _ _))

theorem sweepGo_fst_append (now : Int) (ok : Nat → Bool) :
    ∀ (l₁ l₂ : List Task) (db : DBState),
      (sweepGo now ok db (l₁ ++ l₂)).1 = (sweepGo now ok (sweepGo now ok db l₁).1 l₂).1 := by
  intro l₁
  induction l₁ with
  | nil => intro l₂ db; rfl
  | cons r rest ih =>
    intro l₂ db
    simp only [List.cons_append, sweepGo, List.append_eq, ih]

theorem findTask_eq_of_mem {db : DBState} {t : Task}
    (hN : (db.tasks.map Task.id).Nodup) (ht : t ∈ db.tasks) :
    findTask db t.id = some t := by
  unfold findTask
  cases h : db.tasks.find? (fun u => u.id == t.id) with
  | none =>
    have := List.find?_eq_none.mp h t ht
    simp at this
  | some u =>
    have hu := List.mem_of_find?_eq_some h
    have hui : u.id = t.id := by simpa using List.find?_some h
    rw [List.inj_on_of_nodup_map hN hu ht hui]

theorem nodup_split_ids {l₁ l₂ : List Task} {t : Task}
    (hN : ((l₁ ++ t :: l₂).map Task.id).Nodup) :
    (∀ r ∈ l₁, r.id ≠ t.id) ∧ (∀ r ∈ l₂, r.id ≠ t.id) := by
  rw [List.map_append, List.nodup_append] at hN
  rcases hN with ⟨h1, h2, hdisj⟩
  rw [List.map_cons, List.nodup_cons] at h2
  constructor
  · intro r hr he
    exact hdisj (List.mem_map_of_mem _ hr) (by rw [he]; exact List.mem_cons_self _ _)
  · intro r hr he
    exact h2.1 (by rw [← he]; exact List.mem_map_of_mem _ hr)

/-- C3: in one sweep, a task whose delivery fails keeps its stored row (so
its thresholds stay unfired and are retried next sweep), while a task whose
delivery succeeds has exactly its selected threshold flag committed — the
batch is processed to the end regardless of failures. -/
theorem C3_failed_delivery_not_committed (now : Int) (sendOk : Nat → Bool) (db : DBState)
    (hN : (db.tasks.map Task.id).Nodup) :
    (∀ t ∈ get_pending_tasks_with_due_dates db, sendOk t.id = false →
        findTask (check_deadlines now sendOk db).1 t.id = some t) ∧
    (∀ t ∈ get_pending_tasks_with_due_dates db, ∀ d k, sendOk t.id = true →
        t.due_date = some d → selectThreshold (d - now) t.flags = some k →
        findTask (check_deadlines now sendOk db).1 t.id
          = some { t with flags := t.flags.setTrue k }) := by
  have hrowsN := rows_ids_nodup hN
  constructor
  · intro t ht hfail
    rcases List.append_of_mem ht with ⟨l₁, l₂, heq⟩
    rw [heq] at hrowsN
    rcases nodup_split_ids hrowsN with ⟨hl₁, hl₂⟩
    unfold check_deadlines
    rw [heq, sweepGo_fst_append]
    simp only [sweepGo]
    rw [sweepGo_fst_untouched _ _ hl₂, processTask_fst_sendFail hfail,
      sweepGo_fst_untouched _ _ hl₁]
    exact findTask_eq_of_mem hN (List.mem_filter.mp ht).1
  · intro t ht d k hok hd hs
    rcases List.append_of_mem ht with ⟨l₁, l₂, heq⟩
    rw [heq] at hrowsN
    rcases nodup_split_ids hrowsN with ⟨hl₁, hl₂⟩
    unfold check_deadlines
    rw [heq, sweepGo_fst_append]
    simp only [sweepGo]
    rw [sweepGo_fst_untouched _ _ hl₂]
    have hmid : findTask (sweepGo now sendOk db l₁).1 t.id = some t := by
      rw [sweepGo_fst_untouched _ _ hl₁]
      exact findTask_eq_of_mem hN (List.mem_filter.mp ht).1
    have hpt : (processTask now sendOk (sweepGo now sendOk db l₁).1 t).1
        = (mark_specific_notification_sent (sweepGo now sendOk db l₁).1 t.id k).2 := by
      simp [processTask, hd, hs, hok]
    rw [hpt]
    exact findTask_mark_self (selectThreshold_mem_keys hs) _ hmid

/-- C3 witness: overdue tasks A (id 1) and B (id 2); delivery fails for A,
succeeds for B.  B gets its terminal flag committed, A stays untouched. -/
theorem C3_witness :
    ((dbC3.tasks.map Task.id).Nodup) ∧
    ((∀ t ∈ get_pending_tasks_with_due_dates dbC3, sendOkC3 t.id = false →
        findTask (check_deadlines 1000 sendOkC3 dbC3).1 t.id = some t) ∧
      (∀ t ∈ get_pending_tasks_with_due_dates dbC3, ∀ d k, sendOkC3 t.id = true →
        t.due_date = some d → selectThreshold (d - 1000) t.flags = some k →
        findTask (check_deadlines 1000 sendOkC3 dbC3).1 t.id
          = some { t with flags := t.flags.setTrue k })) :=
  ⟨by decide, C3_failed_delivery_not_committed 1000 sendOkC3 dbC3 (by decide)⟩

theorem mark_tasks_map_id (db : DBState) (tid : Nat) (k : String) :
    ((mark_specific_notification_sent db tid k).2).tasks.map Task.id
      = db.tasks.map Task.id := by
  unfold mark_specific_notification_sent
  split
  · rfl
  · dsimp only
    rw [List.map_map]
    apply List.map_congr_left
    intro a _
    simp only [Function.comp]
    split <;> rfl

theorem processTask_map_id (now : Int) (ok : Nat → Bool) (db : DBState) (t : Task) :
    ((processTask now ok db t).1).tasks.map Task.id = db.tasks.map Task.id := by
  cases hd : t.due_date with
  | none => simp [processTask, hd]
  | some d =>
    cases hs : selectThreshold (d - now) t.flags with
    | none => simp [processTask, hd, hs]
    | some k =>
      cases hok : ok t.id with
      | false => simp [processTask, hd, hs, hok]
      | true => simp [processTask, hd, hs, hok, mark_tasks_map_id]

theorem sweepGo_map_id (now : Int) (ok : Nat → Bool) :
    ∀ (rows : List Task) (db : DBState),
      ((sweepGo now ok db rows).1).tasks.map Task.id = db.tasks.map Task.id := by
  intro rows
  induction rows with
  | nil => intro db; rfl
  | cons r rest ih =>
    intro db
    simp only [sweepGo]
    rw [ih, processTask_map_id]

theorem check_deadlines_map_id (now : Int) (ok : Nat → Bool) (db : DBState) :
    ((check_deadlines now ok db).1).tasks.map Task.id = db.tasks.map Task.id :=
  sweepGo_map_id now ok _ db

/-- C7: a task without a due date is never fetched nor marked by any number
of sweeps: its row — hence its empty set of fired thresholds — survives
every sweep unchanged. -/
theorem C7_no_due_date_never_fires (db : DBState) (t : Task)
    (hN : (db.tasks.map Task.id).Nodup) (ht : t ∈ db.tasks)
    (hdue : t.due_date = none) (hflags : t.flags = Flags.allFalse)
    (ps : List (Int × (Nat → Bool))) :
    ∃ t', findTask (runSweeps ps db) t.id = some t' ∧ t'.flags = Flags.allFalse := by
  suffices h : findTask (runSweeps ps db) t.id = some t by
    exact ⟨t, h, hflags⟩
  induction ps generalizing db with
  | nil => exact findTask_eq_of_mem hN ht
  | cons p rest ih =>
    have hrows : ∀ r ∈ get_pending_tasks_with_due_dates db, r.id ≠ t.id := by
      intro r hr he
      have hmem : r ∈ db.tasks := (List.mem_filter.mp hr).1
      have hrt : r = t := List.inj_on_of_nodup_map hN hmem ht he
      have := (List.mem_filter.mp hr).2
      rw [hrt] at this
      simp [hdue] at this
    have hstep : findTask (check_deadlines p.1 p.2 db).1 t.id = some t := by
      unfold check_deadlines
      rw [sweepGo_fst_untouched _ _ hrows]
      exact findTask_eq_of_mem hN ht
    have hmap := check_deadlines_map_id p.1 p.2 db
    have hN' : (((check_deadlines p.1 p.2 db).1).tasks.map Task.id).Nodup := by
      rw [hmap]; exact hN
    have ht' : t ∈ ((check_deadlines p.1 p.2 db).1).tasks :=
      List.mem_of_find?_eq_some hstep
    have : runSweeps (p :: rest) db = runSweeps rest (check_deadlines p.1 p.2 db).1 := rfl
    rw [this]
    exact ih _ hN' ht'

/-- C7 witness: a store with one flagless no-due-date task, swept twice. -/
theorem C7_witness :
    ((dbC7.tasks.map Task.id).Nodup) ∧ mkPending 1 none 1 ∈ dbC7.tasks ∧
    (mkPending 1 none 1).due_date = none ∧ (mkPending 1 none 1).flags = Flags.allFalse ∧
    (∃ t', findTask (runSweeps [(0, fun _ => true), (900, fun _ => true)] dbC7)
        (mkPending 1 none 1).id = some t' ∧ t'.flags = Flags.allFalse) :=
  ⟨by decide, by decide, by decide, by decide,
    C7_no_due_date_never_fires dbC7 (mkPending 1 none 1) (by decide) (by decide)
      (by decide) (by decide) [(0, fun _ => true), (900, fun _ => true)]⟩

theorem flagsLe_refl (f : Flags) : flagsLe f f := by
  unfold flagsLe
  exact ⟨id, id, id, id, id, id, id⟩

theorem flagsLe_trans {a b c : Flags} (h1 : flagsLe a b) (h2 : flagsLe b c) :
    flagsLe a c := by
  unfold flagsLe at *
  exact ⟨fun h => h2.1 (h1.1 h), fun h => h2.2.1 (h1.2.1 h),
    fun h => h2.2.2.1 (h1.2.2.1 h), fun h => h2.2.2.2.1 (h1.2.2.2.1 h),
    fun h => h2.2.2.2.2.1 (h1.2.2.2.2.1 h),
    fun h => h2.2.2.2.2.2.1 (h1.2.2.2.2.2.1 h),
    fun h => h2.2.2.2.2.2.2 (h1.2.2.2.2.2.2 h)⟩

theorem flagsLe_setTrue (f : Flags) (k : String) : flagsLe f (f.setTrue k) := by
  unfold Flags.setTrue
  split_ifs <;> simp [flagsLe]

theorem findTask_map_back {m : Task → Task} (hid : ∀ u, (m u).id = u.id)
    {l : List Task} {i : Nat} {t' : Task}
    (ha : (l.map m).find? (fun u => u.id == i) = some t') :
    ∃ t, l.find? (fun u => u.id == i) = some t ∧ t' = m t := by
  rw [find?_map_id_pres hid] at ha
  cases h : l.find? (fun u => u.id == i) with
  | none => rw [h] at ha; exact absurd ha (by simp)
  | some u =>
    rw [h] at ha
    exact ⟨u, rfl, by injection ha with ha; exact ha.symm⟩

theorem mark_find_back {db : DBState} {tid : Nat} {k : String} {i : Nat} {t' : Task}
    (ha : findTask (mark_specific_notification_sent db tid k).2 i = some t') :
    ∃ t, findTask db i = some t ∧ flagsLe t.flags t'.flags := by
  unfold mark_specific_notification_sent at ha
  split at ha
  · exact ⟨t', ha, flagsLe_refl _⟩
  · rcases findTask_map_back (fun u => by split <;> rfl) ha with ⟨t, hf, rfl⟩
    refine ⟨t, hf, ?_⟩
    split
    · exact flagsLe_setTrue _ _
    · exact flagsLe_refl _

theorem processTask_find_back {now : Int} {ok : Nat → Bool} {db : DBState} {r : Task}
    {i : Nat} {t' : Task}
    (ha : findTask (processTask now ok db r).1 i = some t') :
    ∃ t, findTask db i = some t ∧ flagsLe t.flags t'.flags := by
  cases hd : r.due_date with
  | none => simp only [processTask, hd] at ha; exact ⟨t', ha, flagsLe_refl _⟩
  | some d =>
    cases hs : selectThreshold (d - now) r.flags with
    | none => simp only [processTask, hd, hs] at ha; exact ⟨t', ha, flagsLe_refl _⟩
    | some k =>
      cases hok : ok r.id with
      | false => simp [processTask, hd, hs, hok] at ha; exact ⟨t', ha, flagsLe_refl _⟩
      | true => simp [processTask, hd, hs, hok] at ha; exact mark_find_back ha

theorem sweepGo_find_back {now : Int} {ok : Nat → Bool} {i : Nat} :
    ∀ (rows : List Task) (db : DBState) (t' : Task),
      findTask (sweepGo now ok db rows).1 i = some t' →
      ∃ t, findTask db i = some t ∧ flagsLe t.flags t'.flags := by
  intro rows
  induction rows with
  | nil => intro db t' ha; exact ⟨t', ha, flagsLe_refl _⟩
  | cons r rest ih =>
    intro db t' ha
    simp only [sweepGo] at ha
    rcases ih _ _ ha with ⟨t₁, h₁, hle₁⟩
    rcases processTask_find_back h₁ with ⟨t₀, h₀, hle₀⟩
    exact ⟨t₀, h₀, flagsLe_trans hle₀ hle₁⟩

theorem update_tasks_map_id (db : DBState) (tid : Nat) (uid : Int) (st : String) :
    ((update_task_status db tid uid st).2).tasks.map Task.id = db.tasks.map Task.id := by
  unfold update_task_status
  dsimp only
  rw [List.map_map]
  apply List.map_congr_left
  intro a _
  simp only [Function.comp]
  split <;> rfl

theorem invariant_of_map_id_eq {s s' : DBState}
    (hmap : s'.tasks.map Task.id = s.tasks.map Task.id)
    (hnext : s'.nextId = s.nextId) (hinv : Invariant s) : Invariant s' := by
  constructor
  · rw [hmap]; exact hinv.1
  · intro t ht
    have hmem : t.id ∈ s'.tasks.map Task.id := List.mem_map_of_mem _ ht
    rw [hmap] at hmem
    rcases List.mem_map.mp hmem with ⟨u, hu, he⟩
    rw [hnext, ← he]
    exact hinv.2 u hu

theorem mark_nextId (db : DBState) (tid : Nat) (k : String) :
    (mark_specific_notification_sent db tid k).2.nextId = db.nextId := by
  unfold mark_specific_notification_sent
  split <;> rfl

theorem processTask_nextId (now : Int) (ok : Nat → Bool) (db : DBState) (r : Task) :
    (processTask now ok db r).1.nextId = db.nextId := by
  cases hd : r.due_date with
  | none => simp [processTask, hd]
  | some d =>
    cases hs : selectThreshold (d - now) r.flags with
    | none => simp [processTask, hd, hs]
    | some k =>
      cases hok : ok r.id with
      | false => simp [processTask, hd, hs, hok]
      | true => simp [processTask, hd, hs, hok, mark_nextId]

theorem sweepGo_nextId (now : Int) (ok : Nat → Bool) :
    ∀ (rows : List Task) (db : DBState), (sweepGo now ok db rows).1.nextId = db.nextId := by
  intro rows
  induction rows with
  | nil => intro db; rfl
  | cons r rest ih =>
    intro db
    simp only [sweepGo]
    rw [ih, processTask_nextId]

theorem applyOp_nextId (op : Op) (s : DBState) : s.nextId ≤ (applyOp op s).nextId := by
  cases op with
  | add u c d due => exact Nat.le_succ _
  | listOp u st => exact Nat.le_refl _
  | complete tid uid => exact Nat.le_refl _
  | deleteOp tid uid => exact Nat.le_refl _
  | markFired tid k => exact Nat.le_of_eq (mark_nextId s tid k).symm
  | sweep now ok => exact Nat.le_of_eq (sweepGo_nextId now ok _ s).symm

theorem applyOp_invariant (op : Op) (s : DBState) (hinv : Invariant s) :
    Invariant (applyOp op s) := by
  cases op with
  | add u c d due =>
    constructor
    · show ((s.tasks ++ [_]).map Task.id).Nodup
      rw [List.map_append, List.nodup_append]
      refine ⟨hinv.1, List.nodup_singleton _, ?_⟩
      intro a ha hb
      simp only [List.map_cons, List.map_nil, List.mem_singleton] at hb
      rcases List.mem_map.mp ha with ⟨u', hu', he⟩
      have := hinv.2 u' hu'
      omega
    · intro t ht
      rcases List.mem_append.mp ht with h | h
      · have := hinv.2 t h
        show t.id < s.nextId + 1
        omega
      · simp only [List.mem_singleton] at h
        rw [h]
        show s.nextId < s.nextId + 1
        omega
  | listOp u st => exact hinv
  | complete tid uid =>
    exact invariant_of_map_id_eq (update_tasks_map_id s tid uid "done") rfl hinv
  | deleteOp tid uid =>
    constructor
    · exact hinv.1.sublist ((List.filter_sublist _).map Task.id)
    · intro t ht
      exact hinv.2 t (List.mem_of_mem_filter ht)
  | markFired tid k =>
    exact invariant_of_map_id_eq (mark_tasks_map_id s tid k) (mark_nextId s tid k) hinv
  | sweep now ok =>
    exact invariant_of_map_id_eq (check_deadlines_map_id now ok s)
      (sweepGo_nextId now ok _ s) hinv

theorem applyOp_find_back (op : Op) (s : DBState) (hinv : Invariant s)
    {i : Nat} {t' : Task} (hi : i < s.nextId)
    (ha : findTask (applyOp op s) i = some t') :
    ∃ t, findTask s i = some t ∧ flagsLe t.flags t'.flags := by
  cases op with
  | add u c d due =>
    unfold applyOp add_task findTask at ha
    dsimp only at ha
    rw [List.find?_append] at ha
    cases h : s.tasks.find? (fun u => u.id == i) with
    | some t =>
      rw [h] at ha
      simp only [Option.or_some, Option.some.injEq] at ha
      exact ⟨t, h, by rw [ha]; exact flagsLe_refl _⟩
    | none =>
      rw [h] at ha
      simp only [Option.none_or] at ha
      have hp := List.find?_some ha
      have hmem := List.mem_of_find?_eq_some ha
      simp only [List.mem_singleton] at hmem
      rw [hmem] at hp
      simp at hp
      omega
  | listOp u st => exact ⟨t', ha, flagsLe_refl _⟩
  | complete tid uid =>
    unfold applyOp update_task_status findTask at ha
    dsimp only at ha
    rcases findTask_map_back (fun u => by split <;> rfl) ha with ⟨t, hf, rfl⟩
    refine ⟨t, hf, ?_⟩
    split
    · exact flagsLe_refl _
    · exact flagsLe_refl _
  | deleteOp tid uid =>
    unfold applyOp delete_task findTask at ha
    dsimp only at ha
    have hmem : t' ∈ s.tasks := List.mem_of_mem_filter (List.mem_of_find?_eq_some ha)
    have hid : t'.id = i := by simpa using List.find?_some ha
    refine ⟨t', ?_, flagsLe_refl _⟩
    rw [← hid]
    exact findTask_eq_of_mem hinv.1 hmem
  | markFired tid k => exact mark_find_back ha
  | sweep now ok => exact sweepGo_find_back _ s t' ha

theorem applyOps_find_back (ops : List Op) :
    ∀ (s : DBState), Invariant s → ∀ (i : Nat) (t' : Task), i < s.nextId →
      findTask (applyOps ops s) i = some t' →
      ∃ t, findTask s i = some t ∧ flagsLe t.flags t'.flags := by
  induction ops with
  | nil => intro s _ i t' _ ha; exact ⟨t', ha, flagsLe_refl _⟩
  | cons op rest ih =>
    intro s hinv i t' hi ha
    have h1 : applyOps (op :: rest) s = applyOps rest (applyOp op s) := rfl
    rw [h1] at ha
    have hi' : i < (applyOp op s).nextId := Nat.lt_of_lt_of_le hi (applyOp_nextId op s)
    rcases ih (applyOp op s) (applyOp_invariant op s hinv) i t' hi' ha with ⟨t₁, h₁, hle₁⟩
    rcases applyOp_find_back op s hinv hi h₁ with ⟨t₀, h₀, hle₀⟩
    exact ⟨t₀, h₀, flagsLe_trans hle₀ hle₁⟩

/-- C8: across any sequence of the operations of the program (add, list,
complete, delete, fired-threshold mark, sweep), a task that still exists
has a fired-flag set that includes everything it had before: no operation
ever clears a fired flag of a surviving task. -/
theorem C8_fired_thresholds_monotone (ops : List Op) (s : DBState) (hinv : Invariant s)
    (i : Nat) (t t' : Task)
    (hb : findTask s i = some t) (ha : findTask (applyOps ops s) i = some t') :
    flagsLe t.flags t'.flags := by
  have hi : i < s.nextId := by
    have hmem := List.mem_of_find?_eq_some hb
    have hid : t.id = i := by simpa using List.find?_some hb
    rw [← hid]
    exact hinv.2 t hmem
  rcases applyOps_find_back ops s hinv i t' hi ha with ⟨t₀, h₀, hle⟩
  rw [hb] at h₀
  injection h₀ with h₀
  rw [h₀]
  exact hle

/-- C8 witness: one pending task, swept (terminal threshold fires), then a
second mark, then completion — the fired set only grows. -/
theorem C8_witness :
    Invariant dbC1 ∧
    findTask dbC1 1 = some (mkPending 1 (some 600) 1) ∧
    findTask (applyOps [Op.sweep 1000 (fun _ => true), Op.markFired 1 "notified_1h",
        Op.complete 1 7] dbC1) 1
      = some { mkPending 1 (some 600) 1 with
          status := "done",
          flags := { Flags.allFalse with notified_final_due := true, notified_1h := true } } ∧
    flagsLe (mkPending 1 (some 600) 1).flags
      { Flags.allFalse with notified_final_due := true, notified_1h := true } :=
  ⟨by decide, by decide, by decide,
    C8_fired_thresholds_monotone
      [Op.sweep 1000 (fun _ => true), Op.markFired 1 "notified_1h", Op.complete 1 7]
      dbC1 (by decide) 1 (mkPending 1 (some 600) 1)
      { mkPending 1 (some 600) 1 with
        status := "done",
        flags := { Flags.allFalse with notified_final_due := true, notified_1h := true } }
      (by decide) (by decide)⟩

/-- C4, counterexample: the mark is NOT conditioned on pending status — on a
store whose only task with id 1 is already done, `markThresholdFired`
still reports true although no matching pending task exists. -/
theorem C4_counterexample :
    (mark_specific_notification_sent dbC4 1 "notified_24h").1 = true ∧
    ¬ ∃ t ∈ dbC4.tasks, t.id = 1 ∧ t.status = "pending" := by
  decide

/-- C4 (amended): for a valid threshold key, the mark returns true iff a
task with that id exists at all (pending or not); when no such task exists
it affects zero rows and leaves the store untouched — a no-op, not an
error. -/
theorem C4_mark_true_iff_task_exists (db : DBState) (tid : Nat) (k : String)
    (hk : k ∈ NOTIFICATION_INTERVAL_KEYS) :
    ((mark_specific_notification_sent db tid k).1 = true ↔ ∃ t ∈ db.tasks, t.id = tid) ∧
    ((¬ ∃ t ∈ db.tasks, t.id = tid) →
      mark_specific_notification_sent db tid k = (false, db)) := by
  constructor
  · simp only [mark_specific_notification_sent, hk, not_true_eq_false, if_false,
      decide_eq_true_eq]
    rw [List.length_pos_iff_exists_mem]
    constructor
    · rintro ⟨t, ht⟩
      rcases List.mem_filter.mp ht with ⟨hmem, hp⟩
      exact ⟨t, hmem, by simpa using hp⟩
    · rintro ⟨t, hmem, hid⟩
      exact ⟨t, List.mem_filter.mpr ⟨hmem, by simpa using hid⟩⟩
  · intro hnone
    simp only [mark_specific_notification_sent, hk, not_true_eq_false, if_false]
    have hfilter : db.tasks.filter (fun t => t.id == tid) = [] := by
      rw [List.filter_eq_nil_iff]
      intro t ht hp
      exact hnone ⟨t, ht, by simpa using hp⟩
    have hmap : db.tasks.map (fun t =>
        if t.id == tid then { t with flags := t.flags.setTrue k } else t) = db.tasks := by
      have : ∀ t ∈ db.tasks, (if t.id == tid then { t with flags := t.flags.setTrue k } else t) = t := by
        intro t ht
        rw [if_neg]
        intro hp
        exact hnone ⟨t, ht, by simpa using hp⟩
      rw [List.map_congr_left this]
      exact List.map_id _
    rw [hfilter, hmap]
    rfl

/-- C4 witness: a pending task with id 1 exists, so the mark reports true. -/
theorem C4_witness :
    "notified_24h" ∈ NOTIFICATION_INTERVAL_KEYS ∧
    (((mark_specific_notification_sent dbC4w 1 "notified_24h").1 = true ↔
        ∃ t ∈ dbC4w.tasks, t.id = 1) ∧
      ((¬ ∃ t ∈ dbC4w.tasks, t.id = 1) →
        mark_specific_notification_sent dbC4w 1 "notified_24h" = (false, dbC4w))) :=
  ⟨by decide, C4_mark_true_iff_task_exists dbC4w 1 "notified_24h" (by decide)⟩

/-- C5, counterexample: with a no-due-date task created before a due-dated
one, the List query returns the no-due-date task FIRST (SQLite sorts NULL
before any value in ascending order), violating the claimed
no-due-date-last order. -/
theorem C5_counterexample :
    get_user_tasks dbC5 7 "pending" = [mkPending 1 none 1, mkPending 2 (some 100) 2] ∧
    (mkPending 1 none 1).due_date = none ∧
    (mkPending 2 (some 100) 2).due_date = some 100 ∧
    ¬ (get_user_tasks dbC5 7 "pending").Pairwise (fun a b => specLe a b = true) := by
  decide

theorem dueLt_total {x y : Option Int} (h : x ≠ y) :
    dueLtSqlite x y = true ∨ dueLtSqlite y x = true := by
  cases x <;> cases y <;> simp [dueLtSqlite] at h ⊢ <;> omega

theorem dueLt_trans {x y z : Option Int} (h1 : dueLtSqlite x y = true)
    (h2 : dueLtSqlite y z = true) : dueLtSqlite x z = true := by
  cases x <;> cases y <;> cases z <;> simp [dueLtSqlite] at h1 h2 ⊢ <;> omega

theorem dueLt_asymm {x y : Option Int} (h1 : dueLtSqlite x y = true) :
    dueLtSqlite y x = false := by
  cases x <;> cases y <;> simp [dueLtSqlite] at h1 ⊢ <;> omega

theorem sqliteLe_total (a b : Task) : sqliteLe a b = true ∨ sqliteLe b a = true := by
  unfold sqliteLe
  by_cases h : a.due_date = b.due_date
  · rw [if_pos h, if_pos h.symm]
    simp only [decide_eq_true_eq]
    omega
  · rw [if_neg h, if_neg (Ne.symm h)]
    exact dueLt_total h

theorem sqliteLe_trans {a b c : Task} (h1 : sqliteLe a b = true)
    (h2 : sqliteLe b c = true) : sqliteLe a c = true := by
  unfold sqliteLe at *
  by_cases hab : a.due_date = b.due_date <;> by_cases hbc : b.due_date = c.due_date
  · rw [if_pos hab] at h1
    rw [if_pos hbc] at h2
    rw [if_pos (hab.trans hbc)]
    simp only [decide_eq_true_eq] at *
    omega
  · rw [if_neg (by rw [hab]; exact hbc)]
    rw [if_neg hbc] at h2
    rw [hab]
    exact h2
  · rw [if_neg (by rw [← hbc]; exact hab)]
    rw [if_neg hab] at h1
    rw [← hbc]
    exact h1
  · rw [if_neg hab] at h1
    rw [if_neg hbc] at h2
    have hac : dueLtSqlite a.due_date c.due_date = true := dueLt_trans h1 h2
    have : a.due_date ≠ c.due_date := by
      intro he
      rw [he] at hac
      rw [dueLt_asymm hac] at hac
      exact Bool.false_ne_true hac
    rw [if_neg this]
    exact hac

/-- C5 (amended): the List operation returns exactly the tasks of the owner
with the requested status, ordered by due date ascending with the no-due-date
(NULL) tasks FIRST, ties broken by creation order. -/
theorem C5_list_order_nulls_first (db : DBState) (uid : Int) (status : String) :
    (get_user_tasks db uid status).Perm
        (db.tasks.filter (fun t => t.user_id == uid && t.status == status)) ∧
    (get_user_tasks db uid status).Pairwise (fun a b => sqliteLe a b = true) := by
  haveI : IsTotal Task (fun a b => sqliteLe a b = true) := ⟨sqliteLe_total⟩
  haveI : IsTrans Task (fun a b => sqliteLe a b = true) := ⟨fun _ _ _ => sqliteLe_trans⟩
  exact ⟨List.perm_insertionSort _ _, List.sorted_insertionSort _ _⟩

/-- C6, counterexample: adding a task with an empty description is accepted:
the row is persisted and a success confirmation returned — no validation
error, and the state changes. -/
theorem C6_counterexample :
    (add_task_logic dbEmpty "" none (fun _ => none) 5 9).2.tasks.length = 1 ∧
    (∃ t ∈ (add_task_logic dbEmpty "" none (fun _ => none) 5 9).2.tasks,
      t.description = "" ∧ t.status = "pending") ∧
    (add_task_logic dbEmpty "" none (fun _ => none) 5 9).1
      = "Okay, I have added task  (ID: 1). No due date was set." := by
  decide

/-- C6 (amended): for any store and any nonzero user/chat context, Add with
an empty description persists the empty-description row and returns the
success confirmation — the operation has no empty-description validation. -/
theorem C6_empty_description_accepted (db : DBState) (dp : String → Option Int)
    (uid cid : Int) (h1 : uid ≠ 0) (h2 : cid ≠ 0) (h3 : db.nextId ≠ 0) :
    (add_task_logic db "" none dp uid cid).2.tasks
      = db.tasks ++ [{
          id := db.nextId, user_id := uid, chat_id := cid,
          description := "", due_date := none, status := "pending",
          added_date := db.nextId, flags := Flags.allFalse }] ∧
    (add_task_logic db "" none dp uid cid).1
      = "Okay, I have added task " ++ "" ++ " (ID: " ++ toString db.nextId ++ ")."
          ++ " No due date was set." := by
  have hu : (uid == 0) = false := by simpa using h1
  have hc : (cid == 0) = false := by simpa using h2
  constructor <;> simp [add_task_logic, add_task, hu, hc, h3]

/-- C6 witness: the amended claim at the empty store with context (5, 9). -/
theorem C6_witness :
    (5 : Int) ≠ 0 ∧ (9 : Int) ≠ 0 ∧ dbEmpty.nextId ≠ 0 ∧
    ((add_task_logic dbEmpty "" none (fun _ => none) 5 9).2.tasks
        = dbEmpty.tasks ++ [{
            id := dbEmpty.nextId, user_id := 5, chat_id := 9,
            description := "", due_date := none, status := "pending",
            added_date := dbEmpty.nextId, flags := Flags.allFalse }] ∧
      (add_task_logic dbEmpty "" none (fun _ => none) 5 9).1
        = "Okay, I have added task " ++ "" ++ " (ID: " ++ toString dbEmpty.nextId ++ ")."
            ++ " No due date was set.") :=
  ⟨by decide, by decide, by decide,
    C6_empty_description_accepted dbEmpty (fun _ => none) 5 9 (by decide) (by decide) (by decide)⟩

/-- C9, counterexample: a stored EMPTY timezone identifier.  `ZoneInfo("")`
raises ValueError, which the inner `except ZoneInfoNotFoundError` of
`get_user_timezone_str` does not catch (nor does its outer
`except sqlite3.Error`), and the repository read in `get_user_tz` sits
outside its `try` — so the error reaches the caller instead of falling
back to UTC. -/
theorem C9_counterexample :
    tzdbC9 "" = ZoneRes.valueError ∧
    get_user_tz tzdbC9 dbC9bad 99 = .error TzErr.valueError :=
  ⟨rfl, rfl⟩

/-- C9 (amended): timezone resolution returns the UTC reference zone and
does not raise when the stored identifier is missing or when the zone
database reports it not found, and resolves a recognized identifier to its
own zone; but a stored non-normalized key (the empty string in particular)
makes `ZoneInfo` raise ValueError, which is caught by neither handler and
propagates to the caller. -/
theorem C9_timezone_fallback (tzdb : String → ZoneRes) (db : DBState) (uid : Int) :
    (db.users.find? (fun u => u.user_id == uid) = none →
      get_user_tz tzdb db uid = .ok "UTC") ∧
    (∀ row, db.users.find? (fun u => u.user_id == uid) = some row →
      (tzdb row.timezone = ZoneRes.notFound → get_user_tz tzdb db uid = .ok "UTC") ∧
      (tzdb row.timezone = ZoneRes.ok → get_user_tz tzdb db uid = .ok row.timezone) ∧
      (tzdb row.timezone = ZoneRes.valueError →
        get_user_tz tzdb db uid = .error TzErr.valueError)) := by
  constructor
  · intro h
    unfold get_user_tz get_user_timezone_str
    rw [h]
    cases hU : tzdb "UTC" <;> simp [hU]
  · intro row hrow
    refine ⟨?_, ?_, ?_⟩
    · intro hnf
      unfold get_user_tz get_user_timezone_str
      rw [hrow]
      simp only [hnf]
      cases hU : tzdb "UTC" <;> simp [hU]
    · intro hok
      unfold get_user_tz get_user_timezone_str
      rw [hrow]
      simp [hok]
    · intro hv
      unfold get_user_tz get_user_timezone_str
      rw [hrow]
      simp [hv]

/-- C9 witness: a stored recognized zone resolves, without error, to
itself. -/
theorem C9_witness :
    get_user_tz tzdbC9 dbC9 12345 = .ok "Asia/Tashkent" := by
  have h := (C9_timezone_fallback tzdbC9 dbC9 12345).2
    { user_id := 12345, timezone := "Asia/Tashkent" } (by decide)
  exact h.2.1 (by decide)

theorem listLoop_eq : ∀ (tasks : List Task) (shown : Nat), shown ≤ 20 →
    listLoop tasks shown =
      (tasks.take (20 - shown)).map
          (fun t => { text := build_task_message_text t, keyboard := true }) ++
        (if 20 - shown < tasks.length then
          [{ text := "...(First 20)", keyboard := false }] else []) := by
  intro tasks
  induction tasks with
  | nil => intro shown h; simp [listLoop]
  | cons t rest ih =>
    intro shown h
    by_cases h20 : 20 ≤ shown
    · have he : shown = 20 := Nat.le_antisymm h h20
      subst he
      simp [listLoop]
    · rw [listLoop, if_neg h20, ih (shown + 1) (by omega)]
      have h1 : 20 - shown = (20 - (shown + 1)) + 1 := by omega
      rw [h1]
      simp only [List.take_succ_cons, List.map_cons, List.cons_append, List.length_cons]
      have hiff : (20 - (shown + 1) < rest.length) ↔
          ((20 - (shown + 1)) + 1 < rest.length + 1) := by omega
      rw [if_congr hiff rfl rfl]

/-- C10: with more than 20 pending tasks, the interactive /list command
sends the header, one buttoned message for exactly the first 20 tasks, and
then the truncation notice — while the conversational list reply is a
single message built from ALL matching tasks. -/
theorem C10_list_truncates_at_twenty (db : DBState) (uid : Int)
    (hu : uid ≠ 0) (h : 20 < (get_user_tasks db uid "pending").length) :
    list_tasks_command db uid
      = { text := "Pending tasks:", keyboard := false } ::
          (((get_user_tasks db uid "pending").take 20).map
            (fun t => { text := build_task_message_text t, keyboard := true }) ++
          [{ text := "...(First 20)", keyboard := false }]) ∧
    list_tasks_logic db uid "pending"
      = "OK. Your " ++ "pending" ++ " tasks:\n\n" ++
          String.intercalate "\n" ((get_user_tasks db uid "pending").map taskLine) := by
  have hne : (get_user_tasks db uid "pending").isEmpty = false := by
    cases hE : get_user_tasks db uid "pending" with
    | nil => rw [hE] at h; simp at h
    | cons a l => simp
  constructor
  · unfold list_tasks_command
    simp only [hne, Bool.false_eq_true, if_false]
    rw [listLoop_eq _ 0 (by omega)]
    norm_num
    exact h
  · unfold list_tasks_logic
    have hz : (uid == 0) = false := by simpa using hu
    simp [hz, hne]

/-- C10 witness: twenty-one pending tasks for user 7. -/
theorem C10_witness :
    (7 : Int) ≠ 0 ∧ 20 < (get_user_tasks dbC10 7 "pending").length ∧
    (list_tasks_command dbC10 7
        = { text := "Pending tasks:", keyboard := false } ::
            (((get_user_tasks dbC10 7 "pending").take 20).map
              (fun t => { text := build_task_message_text t, keyboard := true }) ++
            [{ text := "...(First 20)", keyboard := false }]) ∧
      list_tasks_logic dbC10 7 "pending"
        = "OK. Your " ++ "pending" ++ " tasks:\n\n" ++
            String.intercalate "\n" ((get_user_tasks dbC10 7 "pending").map taskLine)) :=
  ⟨by decide, by decide, C10_list_truncates_at_twenty dbC10 7 (by decide) (by decide)⟩

end TaskBot
